import Mathlib

/-!
Verification development for the picocode indexing and retrieval core.

Each definition is a shallow embedding of a function of the source tree
(`src/ai/openai.py`, `src/ai/analyzer.py`, `src/db/operations.py`,
`src/db/vector_operations.py`, `src/db/db_writer.py`, `src/utils/config.py`);
the Python file and function are named in the doc comment.  Machine floats
(mtimes, vector components, scores) are modelled as rationals, wall-clock
time as natural-number units, and error strings as the message text the
source raises.  External collaborators (the llama-index node parser, the
sqlite-vector extension's distance scan) are modelled as explicit parameters
or, where noted, from the specification's description of their contract.
-/

set_option maxRecDepth 8000

namespace Picocode

/-! ## Embedding gateway: `src/ai/openai.py` -/

/-- `_CIRCUIT_BREAKER_THRESHOLD` (src/ai/openai.py line 26). -/
def CIRCUIT_BREAKER_THRESHOLD : Nat := 5

/-- `_CIRCUIT_BREAKER_TIMEOUT` in seconds (src/ai/openai.py line 27). -/
def CIRCUIT_BREAKER_TIMEOUT : Nat := 60

/-- `max_retries` inside `_retry_with_backoff` (src/ai/openai.py line 72). -/
def maxRetries : Nat := 3

/-- `base_delay` inside `_retry_with_backoff` (line 73), in whole time units. -/
def baseDelay : Nat := 1

/-- ASCII lowering of one character, the effect of Python `str.lower()` on the
ASCII error messages the gateway classifies. -/
def lowerChar (c : Char) : Char :=
  if 'A' ≤ c ∧ c ≤ 'Z' then Char.ofNat (c.toNat + 32) else c

/-- `needle` occurs at the head of `hay` (helper for substring containment,
the Python `keyword in error_str` test). -/
def startsWithL : List Char → List Char → Bool
  | _, [] => true
  | [], _ :: _ => false
  | a :: as, b :: bs => a == b && startsWithL as bs

/-- `needle in hay` on character lists (Python substring containment). -/
def containsSub (hay needle : List Char) : Bool :=
  match hay with
  | [] => needle.isEmpty
  | _ :: t => startsWithL hay needle || containsSub t needle

/-- `transient_error_keywords` (src/ai/openai.py line 75). -/
def transientErrorKeywords : List String :=
  ["timeout", "timed out", "connection", "network", "temporary", "unavailable",
   "rate limit", "429", "500", "502", "503", "504", "overload"]

/-- `is_transient = any(keyword in error_str for keyword in transient_error_keywords)`
with `error_str = str(e).lower()` (src/ai/openai.py lines 85-86). -/
def isTransientError (msg : List Char) : Bool :=
  transientErrorKeywords.any (fun k => containsSub (msg.map lowerChar) k.toList)

/-- `_circuit_state` dict: `{"failures": 0, "open_until": 0}`
(src/ai/openai.py line 28).  `openUntil` is an absolute time in whole units. -/
structure GatewayState where
  failures : Nat
  openUntil : Nat
  deriving DecidableEq, Repr

/-- `_check_circuit_breaker` (src/ai/openai.py lines 48-52): raises exactly when
`open_until > time.time()`; `true` here means the call is rejected. -/
def checkCircuitBreaker (s : GatewayState) (now : Nat) : Bool :=
  decide (now < s.openUntil)

/-- The message of the `RuntimeError` raised by `_check_circuit_breaker`
(line 52), lowercased as the retry classifier sees it.  The trailing
`"{remaining:.1f}s"` is elided: a number below one hundred formatted with one
decimal never contains three consecutive digits, so it cannot introduce any of
the numeric transient keywords, and its only letter is `s`. -/
def circuitOpenMsg : List Char :=
  "Circuit breaker open: too many recent failures. Retry after".toList

/-- `_record_success` (src/ai/openai.py lines 55-59): zeroes both counters. -/
def recordSuccess : GatewayState := ⟨0, 0⟩

/-- `_record_failure` (src/ai/openai.py lines 62-67): increments the
consecutive-failure count; at the threshold the circuit opens until
`now + _CIRCUIT_BREAKER_TIMEOUT`. -/
def recordFailure (s : GatewayState) (now : Nat) : GatewayState :=
  let f := s.failures + 1
  if CIRCUIT_BREAKER_THRESHOLD ≤ f then ⟨f, now + CIRCUIT_BREAKER_TIMEOUT⟩
  else ⟨f, s.openUntil⟩

/-- Outcome of one provider invocation of the wrapped `func`. -/
inductive CallOutcome where
  | ok
  | err (msg : List Char)

/-- Observable trace of one `_retry_with_backoff(func)` call: the returned or
raised value, how many times the provider `func` was actually invoked, the
`time.sleep` backoff delays performed in order, and the final circuit state. -/
structure CallTrace where
  result : Except (List Char) Unit
  providerCalls : Nat
  delays : List Nat
  final : GatewayState
  deriving Repr

/-- Body of the `for attempt in range(max_retries)` loop of
`_retry_with_backoff` (src/ai/openai.py lines 70-97).  `remaining` counts the
loop iterations left (`max_retries - attempt`); `provider` gives the outcome
of the n-th actual provider invocation.  `_check_rate_limit` only delays the
caller and keeps no state the claims mention, so it is modelled as taking no
time.  The `remaining = 0` fall-through mirrors the loop running out, which
the `attempt == max_retries - 1` re-raise makes unreachable. -/
def retryGo (provider : Nat → CallOutcome) : (attempt remaining : Nat) →
    GatewayState → (now calls : Nat) → List Nat → CallTrace
  | _, 0, s, _, calls, delays => ⟨.error [], calls, delays, s⟩
  | attempt, r + 1, s, now, calls, delays =>
    if checkCircuitBreaker s now then
      -- the RuntimeError from _check_circuit_breaker enters the except branch
      if attempt = maxRetries - 1 then
        ⟨.error circuitOpenMsg, calls, delays, recordFailure s now⟩
      else if isTransientError circuitOpenMsg = false ∧ 0 < attempt then
        ⟨.error circuitOpenMsg, calls, delays, recordFailure s now⟩
      else
        retryGo provider (attempt + 1) r (recordFailure s now)
          (now + baseDelay * 2 ^ attempt) calls (delays ++ [baseDelay * 2 ^ attempt])
    else
      match provider calls with
      | .ok => ⟨.ok (), calls + 1, delays, recordSuccess⟩
      | .err msg =>
        if attempt = maxRetries - 1 then
          ⟨.error msg, calls + 1, delays, recordFailure s now⟩
        else if isTransientError msg = false ∧ 0 < attempt then
          ⟨.error msg, calls + 1, delays, recordFailure s now⟩
        else
          retryGo provider (attempt + 1) r (recordFailure s now)
            (now + baseDelay * 2 ^ attempt) (calls + 1)
            (delays ++ [baseDelay * 2 ^ attempt])

/-- `_retry_with_backoff(func)` (src/ai/openai.py lines 70-97) started at
wall-clock `now` with circuit state `s`. -/
def retryWithBackoff (provider : Nat → CallOutcome) (s : GatewayState)
    (now : Nat) : CallTrace :=
  retryGo provider 0 maxRetries s now 0 []

/-! ## Per-project store: `src/db/operations.py` and `src/db/vector_operations.py` -/

/-- One row of the `files` table (src/db/operations.py lines 64-78):
`last_modified` is a nullable REAL and `file_hash` a nullable TEXT. -/
structure FileRow where
  id : Nat
  path : String
  language : String
  snippet : List Char
  lastModified : Option ℚ
  fileHash : Option String
  deriving DecidableEq, Repr

/-- One row of the `chunks` table (src/db/operations.py lines 81-93); the
embedding BLOB is the vector of rationals inserted for it. -/
structure ChunkRow where
  fileId : Nat
  path : String
  chunkIndex : Nat
  vec : List ℚ
  deriving DecidableEq, Repr

/-- One project store file: the `files` and `chunks` tables plus the
`vector_meta` row `key = 'dimension'` (src/db/operations.py `init_db`,
src/db/vector_operations.py `ensure_chunks_and_meta`). -/
structure ProjectStore where
  files : List FileRow
  chunks : List ChunkRow
  dimension : Option Nat
  deriving DecidableEq, Repr

/-- `get_file_by_path` (src/db/operations.py lines 219-227): first `files` row
whose path matches. -/
def getFileByPath (files : List FileRow) (path : String) : Option FileRow :=
  files.find? (fun r => r.path == path)

/-- `needs_reindex` (src/db/operations.py lines 230-245): new file, missing
stored mtime/hash, or differing mtime/hash means reindex, otherwise skip. -/
def needsReindex (files : List FileRow) (path : String) (curMtime : ℚ)
    (curHash : String) : Bool :=
  match getFileByPath files path with
  | none => true
  | some existing =>
    if existing.lastModified = none ∨ existing.fileHash = none then true
    else if existing.lastModified ≠ some curMtime ∨ existing.fileHash ≠ some curHash then true
    else false

/-- `store_file` (src/db/operations.py lines 146-197): upsert on `path`
keeping the row id, storing only a 512-character snippet; a new row gets the
next autoincrement id.  Returns the updated table and the row id. -/
def storeFile (files : List FileRow) (path : String) (content : List Char)
    (language : String) (mtime : ℚ) (hash : String) : List FileRow × Nat :=
  let snippet := content.take 512
  match getFileByPath files path with
  | some r =>
    let r' : FileRow :=
      { r with language := language, snippet := snippet,
               lastModified := some mtime, fileHash := some hash }
    (files.map (fun x => if x.path = path then r' else x), r.id)
  | none =>
    let nid := (files.foldl (fun m x => max m x.id) 0) + 1
    (files ++ [⟨nid, path, language, snippet, some mtime, some hash⟩], nid)

/-- `insert_chunk_vector_with_retry` (src/db/vector_operations.py lines
103-165): with no recorded dimension it records `len(vector)` and inserts;
with a recorded dimension differing from `len(vector)` it raises before any
mutation; otherwise it inserts one `chunks` row.  The lock-retry decorator
only repeats the same insert, so it is not visible in the state transition.
Returns the raised-or-returned rowid alongside the resulting store. -/
def insertChunkVectorWithRetry (st : ProjectStore) (fileId : Nat) (path : String)
    (chunkIndex : Nat) (vector : List ℚ) : Except String Nat × ProjectStore :=
  match st.dimension with
  | none =>
    let st1 : ProjectStore :=
      { st with dimension := some vector.length,
                chunks := st.chunks ++ [⟨fileId, path, chunkIndex, vector⟩] }
    (.ok st1.chunks.length, st1)
  | some storedDim =>
    if storedDim ≠ vector.length then
      (.error "Embedding dimension mismatch", st)
    else
      let st1 : ProjectStore :=
        { st with chunks := st.chunks ++ [⟨fileId, path, chunkIndex, vector⟩] }
      (.ok st1.chunks.length, st1)

/-- `clear_project_data` (src/db/operations.py lines 480-496): deletes all
`chunks` rows, all `files` rows and the `vector_meta` dimension row.  It does
not touch the module-level `_CACHED_DIM` of src/db/vector_operations.py. -/
def clearProjectData (_ : ProjectStore) : ProjectStore :=
  ⟨[], [], none⟩

/-- One entry of the list `search_vectors` returns
(src/db/vector_operations.py lines 230-236). -/
structure SearchResult where
  fileId : Nat
  path : String
  chunkIndex : Nat
  score : ℚ
  deriving DecidableEq, Repr

/-- Everything observable about one `search_vectors` call: the value of
`_CACHED_DIM` afterwards, the dimension handed to `vector_init` (if the scan
was reached), and the result list. -/
structure SearchOutcome where
  cache : Option Nat
  dimUsed : Option Nat
  results : List SearchResult
  deriving Repr

/-- Modelled from the spec: the sqlite-vector extension's
`vector_full_scan('chunks','embedding', q, top_k)` is external binary code;
per spec 4.6 it is a nearest-neighbor scan under the store's cosine distance.
`dist` stands for that distance.  The `ORDER BY v.distance ASC LIMIT ?` and
the join back to `chunks` are the source SQL (src/db/vector_operations.py
lines 214-223). -/
def vectorFullScan (dist : List ℚ → List ℚ → ℚ) (st : ProjectStore)
    (q : List ℚ) (topK : Nat) : List (ChunkRow × ℚ) :=
  ((st.chunks.map (fun c => (c, dist c.vec q))).insertionSort
      (fun a b => a.2 ≤ b.2)).take topK

/-- `search_vectors` (src/db/vector_operations.py lines 171-237): uses the
process-wide `_CACHED_DIM` when set, otherwise reads the stored dimension
(returning an empty list when there is none, and caching what it read), then
scans and converts each distance to a score `1 - distance`. -/
def searchVectors (dist : List ℚ → List ℚ → ℚ) (cache : Option Nat)
    (st : ProjectStore) (q : List ℚ) (topK : Nat) : SearchOutcome :=
  let dimFound : Option Nat :=
    match cache with
    | some d => some d
    | none => st.dimension
  match dimFound with
  | none => ⟨cache, none, []⟩
  | some dim =>
    ⟨some dim, some dim,
     (vectorFullScan dist st q topK).map
       (fun p => ⟨p.1.fileId, p.1.path, p.1.chunkIndex, 1 - p.2⟩)⟩

/-! ## Indexing pipeline: `src/ai/analyzer.py` -/

/-- `CHUNK_SIZE` (src/ai/analyzer.py line 79). -/
def CHUNK_SIZE : Nat := 800

/-- `CHUNK_OVERLAP` (src/ai/analyzer.py line 80). -/
def CHUNK_OVERLAP : Nat := 100

/-- `EMBEDDING_BATCH_SIZE` (src/ai/analyzer.py line 83). -/
def EMBEDDING_BATCH_SIZE : Nat := 16

/-- Result record of `_process_file_sync` (src/ai/analyzer.py lines 186-274)
together with the store it leaves behind and how many
`_get_text_embeddings` batch calls it made against the embedding client. -/
structure ProcessFileResult where
  stored : Bool
  embedded : Bool
  skipped : Bool
  embedBatchCalls : Nat
  store : ProjectStore
  deriving Repr

/-- Inner loop of `_process_file_sync` (src/ai/analyzer.py lines 254-263):
for each chunk index, if the embedder produced a non-empty vector, insert it
through `insert_chunk_vector_with_retry`; an insert error is logged and does
not stop the remaining chunks.  Returns the store and whether any insert
succeeded (`embedded_any`). -/
def insertChunkLoop (fid : Nat) (relPath : String)
    (embOf : Nat → Option (List ℚ)) : List Nat → ProjectStore → Bool →
    ProjectStore × Bool
  | [], st, embeddedAny => (st, embeddedAny)
  | idx :: rest, st, embeddedAny =>
    match embOf idx with
    | none => insertChunkLoop fid relPath embOf rest st embeddedAny
    | some v =>
      match insertChunkVectorWithRetry st fid relPath idx v with
      | (.ok _, st') => insertChunkLoop fid relPath embOf rest st' true
      | (.error _, st') => insertChunkLoop fid relPath embOf rest st' embeddedAny

/-- `_process_file_sync` (src/ai/analyzer.py lines 186-274).  `content` is the
file text read from disk; `parserOut` is the node text list produced by the
external llama-index `SimpleNodeParser` (the source keeps `node.text for node
in nodes if node.text` and falls back to the whole content when that is
empty); `embOf i` is the vector the embedding client returned for chunk `i`
(`none` for a failed or empty slot).  Empty content is skipped outright.
Chunks are embedded in batches of `EMBEDDING_BATCH_SIZE`, one
`_get_text_embeddings` call per batch.  The `incremental` flag is accepted
exactly as in the source. -/
def processFileSync (st : ProjectStore) (content : List Char)
    (relPath language : String) (mtime : ℚ) (hash : String)
    (parserOut : List (List Char)) (embOf : Nat → Option (List ℚ))
    (incremental : Bool) : ProcessFileResult :=
  let _ := incremental
  if content = [] then ⟨false, false, true, 0, st⟩
  else
    let (files', fid) := storeFile st.files relPath content language mtime hash
    let st1 : ProjectStore := { st with files := files' }
    let kept := parserOut.filter (fun t => t ≠ [])
    let chunks := if kept = [] then [content] else kept
    let nBatches := (chunks.length + EMBEDDING_BATCH_SIZE - 1) / EMBEDDING_BATCH_SIZE
    let (st2, embeddedAny) :=
      insertChunkLoop fid relPath embOf (List.range chunks.length) st1 false
    ⟨true, embeddedAny, false, nBatches, st2⟩

/-! ## Chunk boundaries: spec 4.2 and `get_chunk_text` -/

/-- Modelled from the spec: the Chunker itself is the external llama-index
`SimpleNodeParser` (src/ai/analyzer.py line 231); spec 4.2 describes its
contract as the ordered overlapping windows of `CHUNK_SIZE` units with
`CHUNK_OVERLAP` overlap, with a whole-content fallback when splitting yields
no usable window.  Window `i` covers `[i*(size-overlap), min(i*(size-overlap)
+ size, len))`; windows are generated for every start below `len`. -/
def chunkText (content : List Char) : List (List Char) :=
  let step := CHUNK_SIZE - CHUNK_OVERLAP
  let count := (content.length + step - 1) / step
  let windows := (List.range count).map
    (fun i => (content.take (min (i * step + CHUNK_SIZE) content.length)).drop (i * step))
  if windows = [] then [content] else windows

/-- Tail of `get_chunk_text` (src/db/vector_operations.py lines 296-315):
given the file content read back from disk, reconstruct chunk `chunkIndex` as
`content[start:end]` with `step = max(1, CHUNK_SIZE - CHUNK_OVERLAP)`,
`start = chunk_index * step`, `end = min(start + CHUNK_SIZE, len(content))`.
Empty content and a negative index give `None`; a non-positive `CHUNK_SIZE`
returns the whole content. -/
def getChunkSliceFromFile (content : List Char) (chunkIndex : Int) :
    Option (List Char) :=
  if content = [] then none
  else if CHUNK_SIZE ≤ 0 then some content
  else if chunkIndex < 0 then none
  else
    let step := max 1 (CHUNK_SIZE - CHUNK_OVERLAP)
    let start := chunkIndex.toNat * step
    let stop := min (start + CHUNK_SIZE) content.length
    some ((content.take stop).drop start)

/-! ## Path containment in `get_chunk_text`: src/db/vector_operations.py -/

/-- An absolute filesystem path: a drive tag (empty on posix) and its
components.  Components may still contain `".."`/`"."` before resolution. -/
structure AbsPath where
  drive : String
  comps : List String
  deriving DecidableEq, Repr

/-- A path string stored in the `files.path` column, as `os.path.join` sees
it: possibly drive-qualified, possibly rooted, plus components. -/
structure StoredFilePath where
  isRooted : Bool
  drive : Option String
  comps : List String
  deriving DecidableEq, Repr

/-- The empty path string (`if not file_path` check, line 274). -/
def emptyStoredPath : StoredFilePath := ⟨false, none, []⟩

/-- Lexical resolution of `"."`/`".."`/empty components, the effect of
`os.path.abspath(os.path.realpath(...))` on the component list (symbolic
links are not modelled). -/
def normalizeComps (cs : List String) : List String :=
  cs.foldl (fun acc c =>
    if c = "." ∨ c = "" then acc
    else if c = ".." then acc.dropLast
    else acc ++ [c]) []

/-- `os.path.join(project_path, file_path)` (line 278): a drive-qualified
stored path replaces the root entirely; a rooted one discards the root's
components; otherwise components are appended under the root. -/
def joinPath (root : AbsPath) (p : StoredFilePath) : AbsPath :=
  match p.drive with
  | some d => ⟨d, p.comps⟩
  | none => if p.isRooted then ⟨root.drive, p.comps⟩
            else ⟨root.drive, root.comps ++ p.comps⟩

/-- `abspath(realpath(path))` on an absolute path. -/
def resolvePath (a : AbsPath) : AbsPath :=
  ⟨a.drive, normalizeComps a.comps⟩

/-- Outcome of the `os.path.commonpath([full_path, normalized_project_path])`
validation (lines 281-287): `valueError` is the drive-incompatible case the
source catches as `ValueError`. -/
inductive PathCheck where
  | inside
  | outside
  | valueError
  deriving DecidableEq, Repr

/-- `commonpath([full, root]) == root` holds exactly when the root's resolved
components are an initial segment of the full path's; differing drives raise
`ValueError`. -/
def commonPathCheck (full root : AbsPath) : PathCheck :=
  if full.drive ≠ root.drive then .valueError
  else if root.comps.isPrefixOf full.comps then .inside
  else .outside

/-- What one `get_chunk_text` call did: the returned-or-raised value, and
whether the filesystem `open` was ever attempted. -/
structure ChunkTextOutcome where
  result : Except String (Option (List Char))
  fileRead : Bool
  deriving Repr

/-- `get_chunk_text` (src/db/vector_operations.py lines 240-315).
`projectRoot` is the `project_path` metadata value (`none` when missing, which
raises); `fileRowPath` is the `files.path` value for `file_id` (`none` when
the row is missing); `fs` reads a resolved absolute path from disk (`none`
for a read failure).  The containment check runs before any read. -/
def getChunkText (projectRoot : Option AbsPath)
    (fileRowPath : Option StoredFilePath) (fs : AbsPath → Option (List Char))
    (chunkIndex : Int) : ChunkTextOutcome :=
  match projectRoot with
  | none => ⟨.error "Project path metadata is missing", false⟩
  | some root =>
    let rootN := resolvePath root
    match fileRowPath with
    | none => ⟨.ok none, false⟩
    | some fp =>
      if fp = emptyStoredPath then ⟨.ok none, false⟩
      else
        let full := resolvePath (joinPath root fp)
        match commonPathCheck full rootN with
        | .valueError => ⟨.ok none, false⟩
        | .outside => ⟨.ok none, false⟩
        | .inside =>
          match fs full with
          | none => ⟨.ok none, true⟩
          | some content => ⟨.ok (getChunkSliceFromFile content chunkIndex), true⟩

/-! ## Durable write queue: `src/db/db_writer.py` and `src/utils/config.py` -/

/-- `_int_env(name, default)` (src/utils/config.py lines 8-13): the parsed
environment value, or the default when unset or unparsable. -/
def intEnv (envValue : Option Int) (default : Int) : Int :=
  envValue.getD default

/-- The `CFG` entry `"db_writer_workers": _int_env("DB_WRITER_WORKERS", 2)`
(src/utils/config.py line 41).  The key is always present in `CFG`. -/
def cfgDbWriterWorkers (envValue : Option Int) : Int :=
  intEnv envValue 2

/-- Worker count chosen by `get_writer` (src/db/db_writer.py lines 173-189)
and re-clamped by `DBWriter.__init__` line 29: since the `CFG` dict always
holds `db_writer_workers`, `CFG.get("db_writer_workers", min(8, cpu))`
returns the configured value and the cpu-based default is dead; values below
one are clamped to one. -/
def getWriterNumWorkers (envValue : Option Int) (cpu : Nat) : Int :=
  let defaultWorkers : Int := min 8 (Int.ofNat cpu)
  let hasKey := true  -- "db_writer_workers" is always a key of CFG
  let n := if hasKey then cfgDbWriterWorkers envValue else defaultWorkers
  if n < 1 then 1 else n

/-- Events a writer worker performs on the store handle, per task. -/
inductive WriteEvent (τ : Type) where
  | exec (t : τ)
  | commit (t : τ)
  deriving DecidableEq, Repr

/-- `DBWriter._worker` steady-state loop (src/db/db_writer.py lines 82-114)
run by a single worker: take the next task in queue order, execute it, commit
it as its own transaction, signal the producer, repeat. -/
def drainQueue {τ : Type} : List τ → List (WriteEvent τ)
  | [] => []
  | t :: ts => .exec t :: .commit t :: drainQueue ts

/-- The tasks a worker executed, in execution order. -/
def execOrder {τ : Type} (evs : List (WriteEvent τ)) : List τ :=
  evs.filterMap (fun e => match e with | .exec t => some t | .commit _ => none)

/-! ## Project deletion: `src/db/operations.py` `delete_project` -/

/-- Process-level effects of deletion and of `store_file`. -/
inductive SysAct where
  | stopWriterAct
  | removeDbFileAct
  | deleteRegistryRowAct
  | initDbAct
  | enqueueAct
  deriving DecidableEq, Repr

/-- Process-level state around one project: whether its store file exists on
disk, whether `_WRITERS` holds a writer for it, and whether the registry has
its row. -/
structure Sys where
  dbFileExists : Bool
  writerActive : Bool
  registryHasProject : Bool
  deriving DecidableEq, Repr

/-- `delete_project` (src/db/operations.py lines 801-845): unknown project
raises; when the store file exists, `stop_writer` (pop from `_WRITERS`, stop
workers, fail pending tasks) runs before `os.remove`, then the registry row
is deleted. -/
def deleteProject (s : Sys) : Except String Sys × List SysAct :=
  if s.registryHasProject = false then (.error "Project not found", [])
  else if s.dbFileExists then
    (.ok ⟨false, false, false⟩,
     [.stopWriterAct, .removeDbFileAct, .deleteRegistryRowAct])
  else
    (.ok { s with registryHasProject := false }, [.deleteRegistryRowAct])

/-- What a writer worker does with one queued task depending on whether the
store file is on disk (src/db/db_writer.py lines 60-78 and 89-94): a missing
file fails the task with the store-missing `OperationalError`. -/
def writerTaskResult (dbFileExists : Bool) : Except String Nat :=
  if dbFileExists then .ok 1 else .error "Database does not exist"

/-- Process-level effects of `store_file` (src/db/operations.py lines
146-197): a missing database file is first re-created via `init_db`, then
`get_writer` (re-)registers a writer and the task is enqueued; the worker
then sees the file present.  Returns the enqueue result, the new state and
the actions performed. -/
def storeFileSys (s : Sys) : Except String Nat × Sys × List SysAct :=
  let (s1, acts1) :=
    if s.dbFileExists = false then
      ({ s with dbFileExists := true }, [SysAct.initDbAct])
    else (s, ([] : List SysAct))
  let s2 : Sys := { s1 with writerActive := true }
  (writerTaskResult s2.dbFileExists, s2, acts1 ++ [SysAct.enqueueAct])

/-! ## Claim C3 -/

/-- C3: for every store with a recorded vector dimension, inserting a chunk
vector whose length differs from the recorded dimension fails with the
dimension-mismatch error and leaves both the chunk rows and the recorded
dimension (the whole store) unchanged. -/
theorem insert_dim_mismatch_fails_unchanged (st : ProjectStore) (fid : Nat)
    (p : String) (ci : Nat) (v : List ℚ) (d : Nat)
    (hd : st.dimension = some d) (hne : v.length ≠ d) :
    (insertChunkVectorWithRetry st fid p ci v).1 = .error "Embedding dimension mismatch"
    ∧ (insertChunkVectorWithRetry st fid p ci v).2 = st := by
  have hne' : d ≠ v.length := fun h => hne h.symm
  unfold insertChunkVectorWithRetry
  rw [hd]
  simp [hne']

/-- Witness for C3 at a store of dimension 3 receiving a length-2 vector. -/
theorem insert_dim_mismatch_fails_unchanged_witness :
    (⟨[], [], some 3⟩ : ProjectStore).dimension = some 3
    ∧ ([(1 : ℚ), 2]).length ≠ 3
    ∧ (insertChunkVectorWithRetry ⟨[], [], some 3⟩ 7 "a.py" 0 [(1 : ℚ), 2]).2
        = ⟨[], [], some 3⟩ :=
  ⟨rfl, by decide,
   (insert_dim_mismatch_fails_unchanged ⟨[], [], some 3⟩ 7 "a.py" 0 [(1 : ℚ), 2] 3
     rfl (by decide)).2⟩

/-! ## Claim C2 -/

/-- C2 counterexample: with `DB_WRITER_WORKERS` unset (no explicit
configuration), `get_writer` starts 2 worker threads on the store's queue —
`CFG` always carries `db_writer_workers` with default 2 — so more than one
writer worker runs without being explicitly configured, falsifying the claim
that a single in-flight write per store is the unconfigured behavior. -/
theorem default_writer_workers_two :
    getWriterNumWorkers none 4 = 2 ∧ getWriterNumWorkers none 4 ≠ 1 := by
  constructor <;> decide

/-- C2 amended: each individual writer worker drains tasks from its queue in
submission order, executing and committing every mutation as its own
transaction; but the per-store single-writer behavior holds only when the
worker count is one, and the default (environment `DB_WRITER_WORKERS` unset)
is 2 workers per store, so strictly-single-in-flight writing requires
explicitly configuring `DB_WRITER_WORKERS=1`. -/
theorem writer_drain_order_amended :
    (∀ (τ : Type) (ts : List τ), execOrder (drainQueue ts) = ts)
    ∧ (∀ (τ : Type) (ts : List τ),
        drainQueue ts
          = (ts.map (fun t => [WriteEvent.exec t, WriteEvent.commit t])).flatten)
    ∧ (∀ cpu : Nat, getWriterNumWorkers none cpu = 2)
    ∧ (∀ cpu : Nat, getWriterNumWorkers (some 1) cpu = 1) := by
  refine ⟨?_, ?_, ?_, ?_⟩
  · intro τ ts
    induction ts with
    | nil => rfl
    | cons t ts ih => simp [drainQueue, execOrder, List.filterMap_cons] at ih ⊢; exact ih
  · intro τ ts
    induction ts with
    | nil => rfl
    | cons t ts ih => simp [drainQueue] at ih ⊢; exact ih
  · intro cpu; rfl
  · intro cpu; rfl

/-! ## Claim C9 -/

/-- C9 counterexample: after `delete_project` returns on a live project, a
subsequent write submitted through `store_file` does not fail with a
store-missing error — `store_file` re-creates the missing database file via
`init_db` and the enqueued write succeeds. -/
theorem store_file_after_delete_succeeds :
    (deleteProject ⟨true, true, true⟩).1 = .ok ⟨false, false, false⟩
    ∧ (storeFileSys ⟨false, false, false⟩).1 = .ok 1 := by
  constructor <;> rfl

/-- C9 amended: deleting a live project stops the store's write queue before
removing its store file and leaves no writer registered for the store; a task
processed by a writer whose database file is missing fails with the
store-missing error; but a subsequent write submitted through `store_file`
re-initializes the database file and succeeds rather than failing. -/
theorem delete_project_stop_order_amended (s : Sys)
    (h1 : s.registryHasProject = true) (h2 : s.dbFileExists = true) :
    (deleteProject s).2
      = [.stopWriterAct, .removeDbFileAct, .deleteRegistryRowAct]
    ∧ (deleteProject s).1 = .ok ⟨false, false, false⟩
    ∧ writerTaskResult false = .error "Database does not exist"
    ∧ (storeFileSys ⟨false, false, false⟩).1 = .ok 1 := by
  unfold deleteProject
  rw [h1, h2]
  refine ⟨by simp, by simp, rfl, rfl⟩

/-- Witness for C9's amended theorem on a live project. -/
theorem delete_project_stop_order_amended_witness :
    (Sys.mk true true true).registryHasProject = true
    ∧ (Sys.mk true true true).dbFileExists = true
    ∧ (deleteProject ⟨true, true, true⟩).2
        = [.stopWriterAct, .removeDbFileAct, .deleteRegistryRowAct] :=
  ⟨rfl, rfl, (delete_project_stop_order_amended ⟨true, true, true⟩ rfl rfl).1⟩

/-! ## Claim C10 -/

/-- C10: whenever the stored file path, joined to the project root and
resolved, does not land inside the resolved project root (either it escapes
the root or is drive-incompatible), `get_chunk_text` returns `None` without
ever attempting to read the file, so retrieval never reads content from
outside the project root. -/
theorem chunk_text_never_escapes_root (root : AbsPath) (fp : StoredFilePath)
    (fs : AbsPath → Option (List Char)) (ci : Int)
    (h : commonPathCheck (resolvePath (joinPath root fp)) (resolvePath root)
           ≠ .inside) :
    (getChunkText (some root) (some fp) fs ci).result = .ok none
    ∧ (getChunkText (some root) (some fp) fs ci).fileRead = false := by
  unfold getChunkText
  by_cases he : fp = emptyStoredPath
  · simp [he]
  · simp only [if_neg he]
    rcases hc : commonPathCheck (resolvePath (joinPath root fp)) (resolvePath root) with _ | _ | _
    · exact absurd hc h
    · simp [hc]
    · simp [hc]

/-- Witness for C10: a stored path that climbs out of the project root via
`..` is rejected without a read. -/
theorem chunk_text_never_escapes_root_witness :
    commonPathCheck
        (resolvePath (joinPath ⟨"", ["home", "user", "proj"]⟩
          ⟨false, none, ["..", "etc", "passwd"]⟩))
        (resolvePath ⟨"", ["home", "user", "proj"]⟩) ≠ .inside
    ∧ (getChunkText (some ⟨"", ["home", "user", "proj"]⟩)
        (some ⟨false, none, ["..", "etc", "passwd"]⟩) (fun _ => none) 0).fileRead
        = false :=
  ⟨by decide,
   (chunk_text_never_escapes_root ⟨"", ["home", "user", "proj"]⟩
     ⟨false, none, ["..", "etc", "passwd"]⟩ (fun _ => none) 0 (by decide)).2⟩

/-! ## Claim C4 -/

/-- C4: for every non-empty content under the fixed configuration (window
800, overlap 100), every chunk index `i` of the (deterministic) chunking is
reconstructed exactly by `get_chunk_text`'s boundary formula
`start = i * (size - overlap)`, `end = min(start + size, len)`: the slice
read back from the file equals the window text that was embedded for `i`. -/
theorem chunk_reconstruction_matches (content : List Char) (h : content ≠ [])
    (i : Nat) (hi : i < (chunkText content).length) :
    getChunkSliceFromFile content (Int.ofNat i)
      = some ((chunkText content).get ⟨i, hi⟩) := by
  have hlen : 1 ≤ content.length := by
    cases content with
    | nil => exact absurd rfl h
    | cons a l => simp
  have hcount : 1 ≤ (content.length + (CHUNK_SIZE - CHUNK_OVERLAP) - 1)
      / (CHUNK_SIZE - CHUNK_OVERLAP) := by
    rw [Nat.le_div_iff_mul_le (by norm_num [CHUNK_SIZE, CHUNK_OVERLAP])]
    simp only [CHUNK_SIZE, CHUNK_OVERLAP]
    omega
  have hwin : ((List.range ((content.length + (CHUNK_SIZE - CHUNK_OVERLAP) - 1)
        / (CHUNK_SIZE - CHUNK_OVERLAP))).map
      (fun i => (content.take
          (min (i * (CHUNK_SIZE - CHUNK_OVERLAP) + CHUNK_SIZE) content.length)).drop
        (i * (CHUNK_SIZE - CHUNK_OVERLAP)))) ≠ [] := by
    simp only [ne_eq, List.map_eq_nil_iff, List.range_eq_nil]
    omega
  have hct : chunkText content
      = (List.range ((content.length + (CHUNK_SIZE - CHUNK_OVERLAP) - 1)
          / (CHUNK_SIZE - CHUNK_OVERLAP))).map
        (fun i => (content.take
            (min (i * (CHUNK_SIZE - CHUNK_OVERLAP) + CHUNK_SIZE) content.length)).drop
          (i * (CHUNK_SIZE - CHUNK_OVERLAP))) := by
    unfold chunkText
    simp only [if_neg hwin]
  have hi' : i < ((List.range ((content.length + (CHUNK_SIZE - CHUNK_OVERLAP) - 1)
      / (CHUNK_SIZE - CHUNK_OVERLAP))).map
      (fun i => (content.take
          (min (i * (CHUNK_SIZE - CHUNK_OVERLAP) + CHUNK_SIZE) content.length)).drop
        (i * (CHUNK_SIZE - CHUNK_OVERLAP)))).length := by
    rw [hct] at hi; exact hi
  have hget : (chunkText content).get ⟨i, hi⟩
      = (content.take
          (min (i * (CHUNK_SIZE - CHUNK_OVERLAP) + CHUNK_SIZE) content.length)).drop
        (i * (CHUNK_SIZE - CHUNK_OVERLAP)) := by
    rw [List.get_eq_getElem]
    simp only [hct]
    rw [List.getElem_map]
    simp [List.getElem_range]
  rw [hget]
  unfold getChunkSliceFromFile
  rw [if_neg h]
  norm_num [CHUNK_SIZE, CHUNK_OVERLAP]

/-- Witness for C4 on the two-character content `"ab"` at chunk index 0. -/
theorem chunk_reconstruction_matches_witness :
    ("ab".toList ≠ []) ∧ (0 < (chunkText "ab".toList).length)
    ∧ getChunkSliceFromFile "ab".toList (Int.ofNat 0)
        = some ((chunkText "ab".toList).get ⟨0, by decide⟩) :=
  ⟨by decide, by decide,
   chunk_reconstruction_matches "ab".toList (by decide) 0 (by decide)⟩

/-! ## Claim C6 -/

instance : IsTotal (ChunkRow × ℚ) (fun a b => a.2 ≤ b.2) :=
  ⟨fun a b => le_total a.2 b.2⟩

instance : IsTrans (ChunkRow × ℚ) (fun a b => a.2 ≤ b.2) :=
  ⟨fun _ _ _ => le_trans⟩

/-- C6: every `search_vectors` call returns at most `top_k` chunks, ranked by
descending similarity score `1 - distance`; an empty store (no dimension
recorded and nothing cached) yields the empty result list, not an error. -/
theorem search_topk_sorted_empty_ok (dist : List ℚ → List ℚ → ℚ)
    (cache : Option Nat) (st : ProjectStore) (q : List ℚ) (k : Nat) :
    (searchVectors dist cache st q k).results.length ≤ k
    ∧ ((searchVectors dist cache st q k).results.map
        (fun r => r.score)).Pairwise (fun a b => b ≤ a)
    ∧ (cache = none → st.dimension = none →
        (searchVectors dist cache st q k).results = []) := by
  have key : ∀ d : Nat,
      (searchVectors dist (some d) st q k).results.length ≤ k
      ∧ ((searchVectors dist (some d) st q k).results.map
          (fun r => r.score)).Pairwise (fun a b => b ≤ a) := by
    intro d
    constructor
    · simp only [searchVectors, vectorFullScan, List.length_map, List.length_take]
      exact min_le_left _ _
    · simp only [searchVectors, List.map_map]
      rw [List.pairwise_map]
      have hsorted : ((st.chunks.map (fun c => (c, dist c.vec q))).insertionSort
          (fun a b => a.2 ≤ b.2)).Pairwise (fun a b => a.2 ≤ b.2) :=
        List.sorted_insertionSort _ _
      have htake : (vectorFullScan dist st q k).Pairwise (fun a b => a.2 ≤ b.2) :=
        hsorted.sublist (List.take_sublist _ _)
      exact htake.imp (fun hab => by simp only [Function.comp_apply]; linarith)
  rcases cache with _ | d
  · rcases hdim : st.dimension with _ | d
    · refine ⟨?_, ?_, fun _ _ => ?_⟩ <;> simp [searchVectors, hdim]
    · have h2 : searchVectors dist none st q k = searchVectors dist (some d) st q k := by
        simp [searchVectors, hdim]
      refine ⟨?_, ?_, fun _ hcon => ?_⟩
      · rw [h2]; exact (key d).1
      · rw [h2]; exact (key d).2
      · simp at hcon
  · refine ⟨(key d).1, (key d).2, fun hcon _ => by cases hcon⟩

/-- Witness for C6: the empty-store branch at a concrete query. -/
theorem search_topk_sorted_empty_ok_witness :
    (searchVectors (fun _ _ => (0 : ℚ)) none ⟨[], [], none⟩ [] 5).results = [] :=
  (search_topk_sorted_empty_ok (fun _ _ => (0 : ℚ)) none ⟨[], [], none⟩ [] 5).2.2
    rfl rfl

/-! ## Claim C8 -/

/-- C8: the vector dimension used by search is cached process-wide and never
invalidated — after a search caches dimension `d`, clearing the store
(which deletes the stored dimension row) and re-initializing it at a
different dimension `d'` via an insert leaves later searches still using the
stale cached `d`, not the store's new `d'`. -/
theorem cached_dim_never_invalidated (dist : List ℚ → List ℚ → ℚ)
    (st : ProjectStore) (q v : List ℚ) (k fid ci : Nat) (p : String)
    (d d' : Nat) (h1 : st.dimension = some d) (hv : v.length = d')
    (hne : d ≠ d') :
    (searchVectors dist none st q k).cache = some d
    ∧ (clearProjectData st).dimension = none
    ∧ ((insertChunkVectorWithRetry (clearProjectData st) fid p ci v).2).dimension
        = some d'
    ∧ (searchVectors dist (searchVectors dist none st q k).cache
        ((insertChunkVectorWithRetry (clearProjectData st) fid p ci v).2)
        q k).dimUsed = some d
    ∧ (some d ≠ some d') := by
  have hcache : (searchVectors dist none st q k).cache = some d := by
    simp [searchVectors, h1]
  refine ⟨hcache, rfl, ?_, ?_, by simp [hne]⟩
  · simp [insertChunkVectorWithRetry, clearProjectData, hv]
  · rw [hcache]
    simp [searchVectors]

/-- Witness for C8: dimension 2 is cached, the store is cleared and
re-initialized at dimension 3, and the search still runs at 2. -/
theorem cached_dim_never_invalidated_witness :
    (⟨[], [], some 2⟩ : ProjectStore).dimension = some 2
    ∧ ([(0 : ℚ), 0, 0]).length = 3
    ∧ (searchVectors (fun _ _ => (0 : ℚ))
        (searchVectors (fun _ _ => (0 : ℚ)) none ⟨[], [], some 2⟩ [] 5).cache
        ((insertChunkVectorWithRetry (clearProjectData ⟨[], [], some 2⟩)
          1 "x" 0 [(0 : ℚ), 0, 0]).2) [] 5).dimUsed = some 2 :=
  ⟨rfl, by decide,
   (cached_dim_never_invalidated (fun _ _ => (0 : ℚ)) ⟨[], [], some 2⟩ [] [(0 : ℚ), 0, 0]
     5 1 0 "x" 2 3 rfl (by decide) (by decide)).2.2.2.1⟩

/-! ## Gateway lemmas shared by the circuit-breaker and retry claims -/

/-- The circuit-open error text matches none of the transient keywords. -/
theorem isTransient_circuitOpenMsg : isTransientError circuitOpenMsg = false := by
  decide

/-- One unfolding of the retry loop body at positive remaining fuel. -/
theorem retryGo_step (q : Nat → CallOutcome) (a r : Nat) (s : GatewayState)
    (u c : Nat) (ds : List Nat) :
    retryGo q a (r + 1) s u c ds
      = if checkCircuitBreaker s u then
          if a = maxRetries - 1 then
            ⟨.error circuitOpenMsg, c, ds, recordFailure s u⟩
          else if isTransientError circuitOpenMsg = false ∧ 0 < a then
            ⟨.error circuitOpenMsg, c, ds, recordFailure s u⟩
          else
            retryGo q (a + 1) r (recordFailure s u)
              (u + baseDelay * 2 ^ a) c (ds ++ [baseDelay * 2 ^ a])
        else
          match q c with
          | .ok => ⟨.ok (), c + 1, ds, recordSuccess⟩
          | .err m =>
            if a = maxRetries - 1 then
              ⟨.error m, c + 1, ds, recordFailure s u⟩
            else if isTransientError m = false ∧ 0 < a then
              ⟨.error m, c + 1, ds, recordFailure s u⟩
            else
              retryGo q (a + 1) r (recordFailure s u)
                (u + baseDelay * 2 ^ a) (c + 1)
                (ds ++ [baseDelay * 2 ^ a]) := rfl

/-- The loop invokes the provider at most once per remaining iteration. -/
theorem retryGo_calls_le (q : Nat → CallOutcome) :
    ∀ (r a : Nat) (s : GatewayState) (u c : Nat) (ds : List Nat),
      (retryGo q a r s u c ds).providerCalls ≤ c + r := by
  intro r
  induction r with
  | zero => intro a s u c ds; simp [retryGo]
  | succ r ih =>
    intro a s u c ds
    rw [retryGo_step]
    by_cases hcb : checkCircuitBreaker s u
    · simp only [if_pos hcb]
      by_cases h1 : a = maxRetries - 1
      · rw [if_pos h1]; show c ≤ c + (r + 1); omega
      · rw [if_neg h1]
        by_cases h2 : isTransientError circuitOpenMsg = false ∧ 0 < a
        · rw [if_pos h2]; show c ≤ c + (r + 1); omega
        · rw [if_neg h2]
          exact le_trans (ih _ _ _ _ _) (by omega)
    · simp only [if_neg hcb]
      cases hq : q c with
      | ok => show c + 1 ≤ c + (r + 1); omega
      | err m =>
        dsimp only
        by_cases h1 : a = maxRetries - 1
        · rw [if_pos h1]; show c + 1 ≤ c + (r + 1); omega
        · rw [if_neg h1]
          by_cases h2 : isTransientError m = false ∧ 0 < a
          · rw [if_pos h2]; show c + 1 ≤ c + (r + 1); omega
          · rw [if_neg h2]
            exact le_trans (ih _ _ _ _ _) (by omega)

/-- A run that returns success ends in the fully reset circuit state. -/
theorem retryGo_ok_final (q : Nat → CallOutcome) :
    ∀ (r a : Nat) (s : GatewayState) (u c : Nat) (ds : List Nat),
      (retryGo q a r s u c ds).result = .ok () →
      (retryGo q a r s u c ds).final = recordSuccess := by
  intro r
  induction r with
  | zero => intro a s u c ds h; simp [retryGo] at h
  | succ r ih =>
    intro a s u c ds h
    rw [retryGo_step] at h ⊢
    by_cases hcb : checkCircuitBreaker s u
    · simp only [if_pos hcb] at h ⊢
      by_cases h1 : a = maxRetries - 1
      · rw [if_pos h1] at h; simp at h
      · rw [if_neg h1] at h ⊢
        by_cases h2 : isTransientError circuitOpenMsg = false ∧ 0 < a
        · rw [if_pos h2] at h; simp at h
        · rw [if_neg h2] at h ⊢; exact ih _ _ _ _ _ h
    · simp only [if_neg hcb] at h ⊢
      cases hq : q c with
      | ok => rfl
      | err m =>
        rw [hq] at h
        dsimp only at h ⊢
        by_cases h1 : a = maxRetries - 1
        · rw [if_pos h1] at h; simp at h
        · rw [if_neg h1] at h ⊢
          by_cases h2 : isTransientError m = false ∧ 0 < a
          · rw [if_pos h2] at h; simp at h
          · rw [if_neg h2] at h ⊢; exact ih _ _ _ _ _ h

/-- Backoff delays are preserved by the final iteration (`attempt = 2`). -/
theorem retryGo_two_delays (q : Nat → CallOutcome) (s : GatewayState)
    (u c : Nat) (ds : List Nat) :
    (retryGo q 2 1 s u c ds).delays = ds := by
  rw [show (1 : Nat) = 0 + 1 from rfl, retryGo_step]
  by_cases hcb : checkCircuitBreaker s u
  · rw [if_pos hcb, if_pos (show (2 : Nat) = maxRetries - 1 from rfl)]
  · rw [if_neg hcb]
    cases hq : q c with
    | ok => rfl
    | err m =>
      dsimp only
      rw [if_pos (show (2 : Nat) = maxRetries - 1 from rfl)]

/-- From `attempt = 1` the loop appends at most the single delay 2. -/
theorem retryGo_one_delays (q : Nat → CallOutcome) (s : GatewayState)
    (u c : Nat) (ds : List Nat) :
    (retryGo q 1 2 s u c ds).delays = ds
    ∨ (retryGo q 1 2 s u c ds).delays = ds ++ [2] := by
  rw [show (2 : Nat) = 1 + 1 from rfl, retryGo_step]
  by_cases hcb : checkCircuitBreaker s u
  · left
    rw [if_pos hcb, if_neg (show ¬(1 : Nat) = maxRetries - 1 by decide),
      if_pos (⟨isTransient_circuitOpenMsg, by decide⟩ :
        isTransientError circuitOpenMsg = false ∧ 0 < 1)]
  · rw [if_neg hcb]
    cases hq : q c with
    | ok => left; rfl
    | err m =>
      dsimp only
      by_cases ht : isTransientError m = false
      · left
        rw [if_neg (show ¬(1 : Nat) = maxRetries - 1 by decide),
          if_pos (⟨ht, by decide⟩ : isTransientError m = false ∧ 0 < 1)]
      · right
        rw [if_neg (show ¬(1 : Nat) = maxRetries - 1 by decide),
          if_neg (fun hand => ht hand.1)]
        exact retryGo_two_delays q _ _ _ _

/-- From the start the delays performed are a prefix of `[1, 2]`: the backoff
doubles from the 1-unit base. -/
theorem retry_delays_cases (q : Nat → CallOutcome) (s : GatewayState) (u : Nat) :
    (retryWithBackoff q s u).delays = []
    ∨ (retryWithBackoff q s u).delays = [1]
    ∨ (retryWithBackoff q s u).delays = [1, 2] := by
  unfold retryWithBackoff
  rw [show maxRetries = 2 + 1 from rfl, retryGo_step]
  by_cases hcb : checkCircuitBreaker s u
  · rw [if_pos hcb, if_neg (show ¬(0 : Nat) = maxRetries - 1 by decide),
      if_neg (show ¬(isTransientError circuitOpenMsg = false ∧ 0 < 0) by simp)]
    rcases retryGo_one_delays q (recordFailure s u) (u + baseDelay * 2 ^ 0) 0
        ([] ++ [baseDelay * 2 ^ 0]) with h | h
    · right; left; simpa using h
    · right; right; simpa using h
  · rw [if_neg hcb]
    cases hq : q 0 with
    | ok => left; rfl
    | err m =>
      dsimp only
      rw [if_neg (show ¬(0 : Nat) = maxRetries - 1 by decide),
        if_neg (show ¬(isTransientError m = false ∧ 0 < 0) by simp)]
      rcases retryGo_one_delays q (recordFailure s u) (u + baseDelay * 2 ^ 0) 1
          ([] ++ [baseDelay * 2 ^ 0]) with h | h
      · right; left; simpa using h
      · right; right; simpa using h

/-! ## Claim C5 -/

/-- C5: five consecutive recorded failures open the circuit until
`CIRCUIT_BREAKER_TIMEOUT` after the fifth; while the cooldown has not elapsed
a call through the gateway fails with the circuit-open error and never
reaches the provider (zero provider invocations); and any call that returns
success leaves the circuit state fully reset (`failures = 0`). -/
theorem circuit_breaker_open_rejects_then_resets (p : Nat → CallOutcome)
    (s : GatewayState) (now t : Nat)
    (hopen : now < s.openUntil) (hf : 4 ≤ s.failures) :
    recordFailure (recordFailure (recordFailure (recordFailure
        (recordFailure ⟨0, 0⟩ t) t) t) t) t
      = ⟨5, t + CIRCUIT_BREAKER_TIMEOUT⟩
    ∧ (retryWithBackoff p s now).providerCalls = 0
    ∧ (retryWithBackoff p s now).result = .error circuitOpenMsg
    ∧ (∀ (p' : Nat → CallOutcome) (s' : GatewayState) (t' : Nat),
        (retryWithBackoff p' s' t').result = .ok () →
        (retryWithBackoff p' s' t').final = recordSuccess) := by
  have h5 : recordFailure (recordFailure (recordFailure (recordFailure
      (recordFailure ⟨0, 0⟩ t) t) t) t) t
      = (⟨5, t + CIRCUIT_BREAKER_TIMEOUT⟩ : GatewayState) := by
    simp [recordFailure, CIRCUIT_BREAKER_THRESHOLD]
  have hcb : checkCircuitBreaker s now = true := by
    simpa [checkCircuitBreaker] using hopen
  have hs1 : recordFailure s now
      = ⟨s.failures + 1, now + CIRCUIT_BREAKER_TIMEOUT⟩ := by
    unfold recordFailure
    rw [if_pos (show CIRCUIT_BREAKER_THRESHOLD ≤ s.failures + 1 by
      simp only [CIRCUIT_BREAKER_THRESHOLD]; omega)]
  have hcb2 : checkCircuitBreaker (recordFailure s now)
      (now + baseDelay * 2 ^ 0) = true := by
    rw [hs1]
    simp [checkCircuitBreaker, baseDelay, CIRCUIT_BREAKER_TIMEOUT]
  have hrun : retryWithBackoff p s now
      = ⟨.error circuitOpenMsg, 0, [baseDelay * 2 ^ 0],
         recordFailure (recordFailure s now) (now + baseDelay * 2 ^ 0)⟩ := by
    unfold retryWithBackoff
    rw [show maxRetries = 2 + 1 from rfl, retryGo_step]
    rw [if_pos hcb, if_neg (show ¬(0 : Nat) = maxRetries - 1 by decide),
      if_neg (show ¬(isTransientError circuitOpenMsg = false ∧ 0 < 0) by simp)]
    simp only [Nat.zero_add, List.nil_append]
    rw [show (2 : Nat) = 1 + 1 from rfl, retryGo_step]
    rw [if_pos hcb2, if_neg (show ¬(1 : Nat) = maxRetries - 1 by decide),
      if_pos (⟨isTransient_circuitOpenMsg, by decide⟩ :
        isTransientError circuitOpenMsg = false ∧ 0 < 1)]
  refine ⟨h5, ?_, ?_, ?_⟩
  · rw [hrun]
  · rw [hrun]
  · intro p' s' t' h
    exact retryGo_ok_final p' maxRetries 0 s' t' 0 [] h

/-- Witness for C5: an open circuit (5 failures, cooldown until time 100)
rejects a call at time 50 without any provider invocation. -/
theorem circuit_breaker_open_rejects_then_resets_witness :
    (50 < (⟨5, 100⟩ : GatewayState).openUntil)
    ∧ (4 ≤ (⟨5, 100⟩ : GatewayState).failures)
    ∧ (retryWithBackoff (fun _ => CallOutcome.ok) ⟨5, 100⟩ 50).providerCalls = 0 :=
  ⟨by decide, by decide,
   (circuit_breaker_open_rejects_then_resets (fun _ => CallOutcome.ok) ⟨5, 100⟩
     50 0 (by decide) (by decide)).2.1⟩

/-! ## Claim C7 -/

/-- C7: the retry wrapper makes at most 3 provider attempts; the backoff
delays double from the 1-unit base (the delay list is always a prefix of
`[1, 2]`); and a failure is retried only when it is transient or on the very
first attempt — a non-transient failure on a later attempt is raised
immediately, as witnessed by a transient first failure followed by a
non-transient second failure stopping after exactly 2 provider calls. -/
theorem retry_bounded_backoff_policy (p : Nat → CallOutcome) (t : Nat)
    (m0 m1 : List Char) (h0 : p 0 = .err m0) (h1 : p 1 = .err m1)
    (ht0 : isTransientError m0 = true) (ht1 : isTransientError m1 = false) :
    (∀ (q : Nat → CallOutcome) (s : GatewayState) (u : Nat),
        (retryWithBackoff q s u).providerCalls ≤ 3)
    ∧ (∀ (q : Nat → CallOutcome) (s : GatewayState) (u : Nat),
        (retryWithBackoff q s u).delays = []
        ∨ (retryWithBackoff q s u).delays = [1]
        ∨ (retryWithBackoff q s u).delays = [1, 2])
    ∧ (retryWithBackoff p ⟨0, 0⟩ t).result = .error m1
    ∧ (retryWithBackoff p ⟨0, 0⟩ t).providerCalls = 2 := by
  have hrun : retryWithBackoff p ⟨0, 0⟩ t
      = ⟨.error m1, 2, [baseDelay * 2 ^ 0],
         recordFailure ⟨1, 0⟩ (t + baseDelay * 2 ^ 0)⟩ := by
    unfold retryWithBackoff
    rw [show maxRetries = 2 + 1 from rfl, retryGo_step]
    rw [if_neg (show ¬checkCircuitBreaker ⟨0, 0⟩ t = true by
      simp [checkCircuitBreaker])]
    rw [h0]
    dsimp only
    rw [if_neg (show ¬(0 : Nat) = maxRetries - 1 by decide),
      if_neg (show ¬(isTransientError m0 = false ∧ 0 < 0) by simp)]
    rw [show recordFailure ⟨0, 0⟩ t = (⟨1, 0⟩ : GatewayState) by
      simp [recordFailure, CIRCUIT_BREAKER_THRESHOLD]]
    simp only [Nat.zero_add, List.nil_append]
    rw [show (2 : Nat) = 1 + 1 from rfl, retryGo_step]
    rw [if_neg (show ¬checkCircuitBreaker ⟨1, 0⟩ (t + baseDelay * 2 ^ 0) = true by
      simp [checkCircuitBreaker])]
    rw [h1]
    dsimp only
    rw [if_neg (show ¬(1 : Nat) = maxRetries - 1 by decide),
      if_pos (⟨ht1, by decide⟩ : isTransientError m1 = false ∧ 0 < 1)]
  refine ⟨?_, ?_, ?_, ?_⟩
  · intro q s u
    simpa using retryGo_calls_le q maxRetries 0 s u 0 []
  · intro q s u
    exact retry_delays_cases q s u
  · rw [hrun]
  · rw [hrun]

/-- Witness for C7: a transient timeout on attempt 0 followed by a
non-transient permission error on attempt 1 stops after 2 provider calls. -/
theorem retry_bounded_backoff_policy_witness :
    (fun n => if n = 0 then CallOutcome.err "timeout".toList
              else CallOutcome.err "permission denied".toList) 0
        = CallOutcome.err "timeout".toList
    ∧ isTransientError "timeout".toList = true
    ∧ isTransientError "permission denied".toList = false
    ∧ (retryWithBackoff
        (fun n => if n = 0 then CallOutcome.err "timeout".toList
                  else CallOutcome.err "permission denied".toList)
        ⟨0, 0⟩ 0).providerCalls = 2 :=
  ⟨rfl, by decide, by decide,
   (retry_bounded_backoff_policy
     (fun n => if n = 0 then CallOutcome.err "timeout".toList
               else CallOutcome.err "permission denied".toList)
     0 "timeout".toList "permission denied".toList rfl rfl
     (by decide) (by decide)).2.2.2⟩

/-! ## Claim C1 -/

/-- Inserting one chunk vector never removes chunk rows. -/
theorem insert_chunks_le (st : ProjectStore) (fid : Nat) (p : String)
    (ci : Nat) (v : List ℚ) :
    st.chunks.length ≤ ((insertChunkVectorWithRetry st fid p ci v).2).chunks.length := by
  unfold insertChunkVectorWithRetry
  cases st.dimension with
  | none => simp
  | some d =>
    by_cases h : d ≠ v.length
    · simp [h]
    · simp [h]

/-- The per-chunk insert loop never removes chunk rows. -/
theorem insertChunkLoop_chunks_le (fid : Nat) (rp : String)
    (embOf : Nat → Option (List ℚ)) :
    ∀ (l : List Nat) (st : ProjectStore) (b : Bool),
      st.chunks.length ≤ ((insertChunkLoop fid rp embOf l st b).1).chunks.length := by
  intro l
  induction l with
  | nil => intro st b; simp [insertChunkLoop]
  | cons i rest ih =>
    intro st b
    unfold insertChunkLoop
    cases hv : embOf i with
    | none => exact ih st b
    | some v =>
      dsimp only
      cases hins : insertChunkVectorWithRetry st fid rp i v with
      | mk res st' =>
        have hle : st.chunks.length ≤ st'.chunks.length := by
          have h2 := insert_chunks_le st fid rp i v
          rw [hins] at h2
          exact h2
        cases res with
        | ok n => exact le_trans hle (ih st' true)
        | error e => exact le_trans hle (ih st' b)

/-- The store state after a file was fully indexed and nothing on disk
changed: its `files` row carries exactly the current mtime and hash, and its
chunk rows are the failing input's baseline. -/
def unchangedStore (relPath language : String) (content : List Char)
    (mtime : ℚ) (hash : String) : ProjectStore :=
  ⟨[⟨1, relPath, language, content.take 512, some mtime, some hash⟩], [], none⟩

/-- C1 (divergence witness): for a non-empty file whose stored record carries
the identical mtime and hash, the change detector `needs_reindex` answers
"skip" — yet `_process_file_sync` run with `incremental = true` still makes
at least one embedding batch call and grows the chunk rows, because the
pipeline never consults `needs_reindex` (it is imported by
src/ai/analyzer.py but called nowhere).  The claim's skip behavior is the
documented intent; the code re-embeds unconditionally. -/
theorem unchanged_file_still_embedded (relPath language hash : String)
    (mtime : ℚ) (content : List Char) (parserOut : List (List Char))
    (v : List ℚ) (hc : content ≠ []) (hv : v ≠ []) :
    needsReindex (unchangedStore relPath language content mtime hash).files
        relPath mtime hash = false
    ∧ 1 ≤ (processFileSync (unchangedStore relPath language content mtime hash)
        content relPath language mtime hash parserOut (fun _ => some v)
        true).embedBatchCalls
    ∧ 0 < ((processFileSync (unchangedStore relPath language content mtime hash)
        content relPath language mtime hash parserOut (fun _ => some v)
        true).store).chunks.length := by
  have hfind : getFileByPath (unchangedStore relPath language content mtime hash).files
      relPath = some ⟨1, relPath, language, content.take 512, some mtime, some hash⟩ := by
    simp [getFileByPath, unchangedStore, List.find?]
  have hlen1 : ∀ kept : List (List Char),
      1 ≤ (if kept = [] then [content] else kept).length := by
    intro kept
    by_cases hk : kept = []
    · simp [hk]
    · rcases kept with _ | ⟨a, l⟩
      · exact absurd rfl hk
      · simp
  refine ⟨?_, ?_, ?_⟩
  · unfold needsReindex
    rw [hfind]
    simp
  · unfold processFileSync
    rw [if_neg hc]
    have hdiv : ∀ L : Nat, 1 ≤ L →
        1 ≤ (L + EMBEDDING_BATCH_SIZE - 1) / EMBEDDING_BATCH_SIZE := by
      intro L hL
      rw [Nat.le_div_iff_mul_le (by norm_num [EMBEDDING_BATCH_SIZE])]
      simp only [EMBEDDING_BATCH_SIZE]
      omega
    exact hdiv _ (hlen1 _)
  · unfold processFileSync
    rw [if_neg hc]
    dsimp only
    set kept := parserOut.filter (fun t => t ≠ []) with hkept
    set chunks := if kept = [] then [content] else kept with hchunksdef
    obtain ⟨n, hn⟩ : ∃ n, chunks.length = n + 1 :=
      ⟨chunks.length - 1, by rw [hchunksdef]; have := hlen1 kept; omega⟩
    rw [hn, List.range_succ_eq_map]
    have key : ∀ (fid : Nat) (files' : List FileRow) (rest : List Nat),
        0 < ((insertChunkLoop fid relPath (fun _ => some v) (0 :: rest)
          ⟨files', [], none⟩ false).1).chunks.length := by
      intro fid files' rest
      unfold insertChunkLoop
      dsimp only
      have hins : insertChunkVectorWithRetry ⟨files', [], none⟩ fid relPath 0 v
          = (.ok 1, ⟨files', [⟨fid, relPath, 0, v⟩], some v.length⟩) := by
        simp [insertChunkVectorWithRetry]
      rw [hins]
      have hmono := insertChunkLoop_chunks_le fid relPath (fun _ => some v) rest
        (⟨files', [⟨fid, relPath, 0, v⟩], some v.length⟩ : ProjectStore) true
      simp only [List.length_cons, List.length_nil] at hmono
      exact lt_of_lt_of_le Nat.zero_lt_one hmono
    dsimp only [unchangedStore]
    exact key _ _ _

/-- Witness for C1's divergence theorem on a concrete unchanged file. -/
theorem unchanged_file_still_embedded_witness :
    ("hello".toList ≠ []) ∧ ([(1 : ℚ), 2] ≠ [])
    ∧ needsReindex (unchangedStore "a.py" "python" "hello".toList 7 "h1").files
        "a.py" 7 "h1" = false
    ∧ 1 ≤ (processFileSync (unchangedStore "a.py" "python" "hello".toList 7 "h1")
        "hello".toList "a.py" "python" 7 "h1" [] (fun _ => some [(1 : ℚ), 2])
        true).embedBatchCalls :=
  ⟨by decide, by decide,
   (unchanged_file_still_embedded "a.py" "python" "h1" 7 "hello".toList []
     [(1 : ℚ), 2] (by decide) (by decide)).1,
   (unchanged_file_still_embedded "a.py" "python" "h1" 7 "hello".toList []
     [(1 : ℚ), 2] (by decide) (by decide)).2.1⟩

end Picocode
